import Mathlib

/-!
Verification of the plug repository's cron scheduler, message chunker,
provider chain, proxy response parser, session store and compactor.

Each Python module is shallowly embedded: pure functions become Lean
functions, SQLite tables become lists of row structures, wall-clock
floats become rationals, and the stateful store operations become pure
state-passing functions.  External library behaviour (tiktoken token
counts, the LLM transport, `json.loads`, calendar arithmetic of
`next_cron_time`) is abstracted as explicit function parameters or
small faithful models, as noted on each definition.
-/

namespace Plug

/-! ## Cron scheduler (src/plug/cron/scheduler.py) -/

/-- Python truthiness of an optional float: `None` and `0.0` are falsy. -/
def truthyQ : Option ℚ → Bool
  | none => false
  | some x => x != 0

/-- The `CronJob` dataclass. Epoch-second floats are modelled as `ℚ`. -/
structure CronJob where
  id : String
  name : String := ""
  enabled : Bool := true
  schedule_kind : String
  schedule_at : Option ℚ := none
  schedule_every_ms : Option ℤ := none
  schedule_cron_expr : Option String := none
  schedule_tz : Option String := none
  payload_kind : String := "system_event"
  payload_text : String := ""
  payload_model : Option String := none
  payload_timeout : ℤ := 120
  channel_id : Option String := none
  next_run : Option ℚ := none
  last_run : Option ℚ := none
  run_count : ℕ := 0
  created_at : ℚ := 0
deriving Repr, DecidableEq

/-- `CronJob.compute_next_run`.  `wallNow` models `time.time()`; the Python
`now = after or time.time()` makes a falsy `after` (None or 0.0) fall back to
the wall clock.  `nextCron` abstracts `next_cron_time` (stdlib calendar
arithmetic), returning `none` when no matching time exists within 366 days. -/
def computeNextRun (nextCron : String → ℚ → Option ℚ) (job : CronJob)
    (after : Option ℚ) (wallNow : ℚ) : Option ℚ :=
  let now : ℚ := if truthyQ after then after.getD 0 else wallNow
  if job.schedule_kind = "at" then
    match job.schedule_at with
    | some t => if t ≠ 0 ∧ t > now then some t else none
    | none => none
  else if job.schedule_kind = "every" then
    match job.schedule_every_ms with
    | some ms =>
      if ms ≠ 0 then
        let interval : ℚ := (ms : ℚ) / 1000
        if truthyQ job.last_run then some (job.last_run.getD 0 + interval)
        else some (now + interval)
      else none
    | none => none
  else if job.schedule_kind = "cron" then
    match job.schedule_cron_expr with
    | some e => if e ≠ "" then nextCron e now else none
    | none => none
  else none

/-- `CronStore.add`: recompute `next_run` then insert the row.  Returns the
new table and the job as stored. -/
def cronAdd (nextCron : String → ℚ → Option ℚ) (st : List CronJob)
    (job : CronJob) (wallNow : ℚ) : List CronJob × CronJob :=
  let j := { job with next_run := computeNextRun nextCron job none wallNow }
  (st ++ [j], j)

/-- `CronStore.get_due_jobs`: rows with `enabled = 1 AND next_run IS NOT NULL
AND next_run <= now`.  A falsy `now` argument falls back to the wall clock
(Python `now = now or time.time()`). -/
def getDueJobs (st : List CronJob) (now : Option ℚ) (wallNow : ℚ) : List CronJob :=
  let t : ℚ := if truthyQ now then now.getD 0 else wallNow
  st.filter fun j =>
    j.enabled && (match j.next_run with
      | some r => decide (r ≤ t)
      | none => false)

/-- A row of the `cron_runs` table. -/
structure CronRun where
  job_id : String
  started_at : ℚ
  finished_at : ℚ
  status : String
  result : String
  error : String
deriving Repr, DecidableEq

/-- `CronStore.mark_run`: bump `last_run`/`run_count`, recompute `next_run`
with `after=now`, auto-disable one-shot (`at`) jobs, write those four columns
back to the job's row, and append a `cron_runs` record. -/
def markRun (nextCron : String → ℚ → Option ℚ) (st : List CronJob)
    (runs : List CronRun) (job : CronJob) (status result error : String)
    (wallNow : ℚ) : List CronJob × List CronRun × CronJob :=
  let j1 := { job with last_run := some wallNow, run_count := job.run_count + 1 }
  let j2 := { j1 with next_run := computeNextRun nextCron j1 (some wallNow) wallNow }
  let j3 := if j2.schedule_kind = "at" then { j2 with enabled := false } else j2
  let st' := st.map fun r =>
    if r.id = job.id then
      { r with last_run := j3.last_run, run_count := j3.run_count,
               next_run := j3.next_run, enabled := j3.enabled }
    else r
  (st', runs ++ [⟨job.id, wallNow, wallNow, status, result, error⟩], j3)

/-- In `compute_next_run`, `now = after or time.time()` equals `wallNow`
whenever `after = some wallNow` (truthy or not, both branches agree). -/
theorem computeNextRun_at_past (nextCron : String → ℚ → Option ℚ)
    (job : CronJob) (wallNow : ℚ) (hkind : job.schedule_kind = "at")
    (hpast : ∀ t, job.schedule_at = some t → t ≤ wallNow) :
    computeNextRun nextCron job (some wallNow) wallNow = none := by
  unfold computeNextRun
  have hwall : (if truthyQ (some wallNow) then (some wallNow).getD 0 else wallNow) = wallNow := by
    by_cases h : truthyQ (some wallNow) <;> simp [h]
  rw [hkind]
  simp only [if_pos rfl, hwall]
  cases hat : job.schedule_at with
  | none => rfl
  | some t =>
    have ht := hpast t hat
    have : ¬ (t ≠ 0 ∧ t > wallNow) := by
      rintro ⟨-, hgt⟩
      exact absurd ht (not_le.mpr hgt)
    simp [this]

/-- The same fact for `add` (which calls `compute_next_run` with `after=None`). -/
theorem computeNextRun_at_past_addTime (nextCron : String → ℚ → Option ℚ)
    (job : CronJob) (addNow : ℚ) (hkind : job.schedule_kind = "at")
    (hpast : ∀ t, job.schedule_at = some t → t ≤ addNow) :
    computeNextRun nextCron job none addNow = none := by
  unfold computeNextRun
  rw [hkind]
  simp only [truthyQ, Bool.false_eq_true, if_false, if_pos rfl]
  cases hat : job.schedule_at with
  | none => rfl
  | some t =>
    have ht := hpast t hat
    have : ¬ (t ≠ 0 ∧ t > addNow) := by
      rintro ⟨-, hgt⟩
      exact absurd ht (not_le.mpr hgt)
    simp [this]

/-- The concrete job of claim C1: an `at` job whose `schedule_at` lies 30
seconds in the past (add time 1000, schedule_at 970). -/
def c1Job : CronJob := { id := "j1", schedule_kind := "at", schedule_at := some 970 }

/-- C1 counterexample: adding an `at` job whose `schedule_at` is 30 s in the
past stores `next_run = None`, and `get_due_jobs` on the next tick (15 s
later) returns nothing — the job does not fire, contradicting the claim that
`get_due_jobs` returns it and the executor runs once. -/
theorem cron_at_past_add_not_due_counterexample :
    (cronAdd (fun _ _ => none) [] c1Job 1000).2.next_run = none ∧
    getDueJobs (cronAdd (fun _ _ => none) [] c1Job 1000).1 (some 1015) 1015 = [] := by
  constructor <;> rfl

/-- C1 (amended): an `at` job whose `schedule_at` is already past (or unset)
when the job is added gets `next_run = None` stored, and is never returned by
`get_due_jobs` at any later tick, so the executor is never invoked for it. -/
theorem cron_at_past_add_never_due (nextCron : String → ℚ → Option ℚ)
    (st : List CronJob) (job : CronJob) (addNow : ℚ)
    (hkind : job.schedule_kind = "at")
    (hpast : ∀ t, job.schedule_at = some t → t ≤ addNow) :
    (cronAdd nextCron st job addNow).2.next_run = none ∧
    ∀ tick wall, (cronAdd nextCron st job addNow).2 ∉
      getDueJobs (cronAdd nextCron st job addNow).1 tick wall := by
  have hnone : computeNextRun nextCron job none addNow = none :=
    computeNextRun_at_past_addTime nextCron job addNow hkind hpast
  refine ⟨by simp [cronAdd, hnone], ?_⟩
  intro tick wall hmem
  rw [getDueJobs, List.mem_filter] at hmem
  have hpred := hmem.2
  simp only [cronAdd, hnone] at hpred
  simp at hpred

/-- Witness for the C1 amended theorem at the concrete C1 scenario. -/
theorem cron_at_past_add_never_due_witness :
    (cronAdd (fun _ _ => none) [] c1Job 1000).2.next_run = none ∧
    ∀ tick wall, (cronAdd (fun _ _ => none) [] c1Job 1000).2 ∉
      getDueJobs (cronAdd (fun _ _ => none) [] c1Job 1000).1 tick wall :=
  cron_at_past_add_never_due (fun _ _ => none) [] c1Job 1000 rfl
    (by intro t ht; cases ht; norm_num)

/-- C7: for a `schedule_kind = "at"` job with no prior runs whose
`schedule_at` does not lie in the future of the `mark_run` wall clock,
`mark_run` — whatever the run status — leaves both the returned job and its
stored row with `enabled = false`, `run_count = 1` and `next_run = None`. -/
theorem cron_at_mark_run_disables (nextCron : String → ℚ → Option ℚ)
    (st : List CronJob) (runs : List CronRun) (job : CronJob)
    (status result error : String) (wallNow : ℚ)
    (hkind : job.schedule_kind = "at")
    (hcount : job.run_count = 0)
    (hpast : ∀ t, job.schedule_at = some t → t ≤ wallNow) :
    ((markRun nextCron st runs job status result error wallNow).2.2.enabled = false ∧
     (markRun nextCron st runs job status result error wallNow).2.2.run_count = 1 ∧
     (markRun nextCron st runs job status result error wallNow).2.2.next_run = none) ∧
    ∀ r ∈ (markRun nextCron st runs job status result error wallNow).1,
      r.id = job.id → r.enabled = false ∧ r.run_count = 1 ∧ r.next_run = none := by
  have hnone : computeNextRun nextCron
      { job with last_run := some wallNow, run_count := job.run_count + 1 }
      (some wallNow) wallNow = none :=
    computeNextRun_at_past nextCron
      { job with last_run := some wallNow, run_count := job.run_count + 1 }
      wallNow hkind hpast
  constructor
  · simp only [markRun, hnone]
    simp [hkind, hcount]
  · intro r hr hid
    simp only [markRun, List.mem_map] at hr
    obtain ⟨r0, _, hr0⟩ := hr
    by_cases h : r0.id = job.id
    · rw [if_pos h] at hr0
      subst hr0
      simp only [hnone]
      simp [hkind, hcount]
    · rw [if_neg h] at hr0
      subst hr0
      exact absurd hid h

/-- Witness for C7 at a concrete timed-out one-shot job. -/
theorem cron_at_mark_run_disables_witness :
    (((markRun (fun _ _ => none) [c1Job] [] c1Job "timeout" "" "Execution timed out" 1000).2.2.enabled = false ∧
      (markRun (fun _ _ => none) [c1Job] [] c1Job "timeout" "" "Execution timed out" 1000).2.2.run_count = 1 ∧
      (markRun (fun _ _ => none) [c1Job] [] c1Job "timeout" "" "Execution timed out" 1000).2.2.next_run = none) ∧
     ∀ r ∈ (markRun (fun _ _ => none) [c1Job] [] c1Job "timeout" "" "Execution timed out" 1000).1,
       r.id = c1Job.id → r.enabled = false ∧ r.run_count = 1 ∧ r.next_run = none) :=
  cron_at_mark_run_disables (fun _ _ => none) [c1Job] [] c1Job
    "timeout" "" "Execution timed out" 1000 rfl rfl
    (by intro t ht; cases ht; norm_num)

/-! ## Message chunker (src/plug/bot/chunker.py)

Texts are modelled as `List Char`.  `str.rstrip`, `str.rfind`, `str.find`
and `re.finditer("```", ...)` are translated below; `chunk_message`'s
`while` loop is given explicit fuel, with `none` meaning the loop is still
running when the fuel runs out. -/

/-- The whitespace set of Python's `str.strip`/`str.rstrip` (no argument). -/
def isPySpace (c : Char) : Bool :=
  c == ' ' || c == '\t' || c == '\n' || c == '\r' || c == '\x0b' || c == '\x0c'

/-- `str.rstrip()`: drop trailing whitespace. -/
def rstripChars (l : List Char) : List Char :=
  (l.reverse.dropWhile isPySpace).reverse

/-- Start positions of the non-overlapping matches of `re.finditer("```", ·)`,
scanning left to right from index `i`. -/
def fencePositionsAux : List Char → ℕ → List ℕ
  | '`' :: '`' :: '`' :: rest, i => i :: fencePositionsAux rest (i + 3)
  | _ :: rest, i => fencePositionsAux rest (i + 1)
  | [], _ => []

/-- All fence-marker match positions in a text. -/
def fencePositions (l : List Char) : List ℕ := fencePositionsAux l 0

/-- The number of triple-backtick fence markers in a text (non-overlapping,
as `re.finditer` counts them). -/
def countFences (l : List Char) : ℕ := (fencePositions l).length

/-- `str.find(c, start)`: smallest index `≥ start` holding `c`, if any
(Python returns -1, modelled as `none`). -/
def findCharFrom (l : List Char) (c : Char) (start : ℕ) : Option ℕ :=
  (List.range l.length).find? fun i => decide (start ≤ i) && (l.getD i ' ' == c)

/-- `str.rfind(pat)`: the largest index where `pat` occurs, if any
(Python returns -1, modelled as `none`). -/
def rfindSub (l pat : List Char) : Option ℕ :=
  ((List.range (l.length + 1)).filter fun i => pat.isPrefixOf (l.drop i)).getLast?

/-- `_find_split_point`, clause by clause.  `maxL / 4` etc. are Python's
integer floor divisions; the fence branch falls through to the paragraph /
line / word / hard-cut ladder exactly when the Python code does. -/
def findSplitPoint (text : List Char) (maxL : ℕ) : ℕ :=
  let window := text.take maxL
  let blocks := fencePositions window
  let lastComplete : Option ℕ :=
    if 3 ≤ blocks.length then some (blocks.getD (blocks.length - 2) 0 + 3) else none
  let lcTruthy : Bool :=
    match lastComplete with
    | some v => (v != 0) && decide (v > maxL / 4)
    | none => false
  let fenceSplit : Option ℕ :=
    if blocks ≠ [] ∧ blocks.length % 2 ≠ 0 then
      if lcTruthy then
        match findCharFrom window '\n' (lastComplete.getD 0) with
        | some nl => some (nl + 1)
        | none => some (lastComplete.getD 0)
      else
        let firstBlock := blocks.headD 0
        if firstBlock > maxL / 4 then
          some (rstripChars (window.take firstBlock)).length
        else none
    else none
  let paraSplit : Option ℕ :=
    match rfindSub window ['\n', '\n'] with
    | some p => if p > maxL / 3 then some (p + 1) else none
    | none => none
  let lineSplit : Option ℕ :=
    match rfindSub window ['\n'] with
    | some p => if p > maxL / 3 then some (p + 1) else none
    | none => none
  let spaceSplit : Option ℕ :=
    match rfindSub window [' '] with
    | some p => if p > maxL / 2 then some (p + 1) else none
    | none => none
  (((fenceSplit <|> paraSplit) <|> lineSplit) <|> spaceSplit).getD maxL

/-- The `while remaining:` loop of `chunk_message`, with fuel: `none` means
the loop had not finished after `fuel` iterations. -/
def chunkLoop (maxL : ℕ) : ℕ → List Char → Option (List (List Char))
  | 0, _ => none
  | fuel + 1, remaining =>
    if remaining = [] then some []
    else if remaining.length ≤ maxL then some [remaining]
    else
      match chunkLoop maxL fuel
          ((remaining.drop (findSplitPoint remaining maxL)).dropWhile (· == '\n')) with
      | none => none
      | some chunks =>
        some (if rstripChars (remaining.take (findSplitPoint remaining maxL)) ≠ [] then
          rstripChars (remaining.take (findSplitPoint remaining maxL)) :: chunks
        else chunks)

/-- `chunk_message` (with fuel for its loop).  Texts short enough are
returned as a single chunk without the final blank-filter, as in the code. -/
def chunkMessage (fuel : ℕ) (text : List Char) (maxL : ℕ) :
    Option (List (List Char)) :=
  if text.length ≤ maxL then some [text]
  else (chunkLoop maxL fuel text).map
    (List.filter fun c => c.any fun ch => !(isPySpace ch))

/-- A text containing no backtick has no fence match, from any start index. -/
theorem fencePositionsAux_eq_nil (l : List Char) (i : ℕ) (h : ∀ c ∈ l, c ≠ '`') :
    fencePositionsAux l i = [] := by
  induction l, i using fencePositionsAux.induct with
  | case1 rest i ih => exact absurd rfl (h '`' (by simp))
  | case2 c rest i hne ih =>
    rw [fencePositionsAux.eq_def]
    split
    · rename_i heq
      injection heq with h1 h2
      exact absurd h1 (h c (by simp))
    · rename_i a rest1 heq
      injection heq with h1 h2
      subst h1; subst h2
      exact ih fun a ha => h a (List.mem_cons_of_mem c ha)
    · rfl
  | case3 i => rfl

/-- A backtick-free text contains zero fence markers. -/
theorem countFences_eq_zero (l : List Char) (h : ∀ c ∈ l, c ≠ '`') :
    countFences l = 0 := by
  unfold countFences fencePositions
  rw [fencePositionsAux_eq_nil l 0 h]
  rfl

/-- Characters of `rstripChars l` come from `l`. -/
theorem mem_rstripChars {a : Char} {l : List Char} (h : a ∈ rstripChars l) :
    a ∈ l := by
  unfold rstripChars at h
  rw [List.mem_reverse] at h
  exact List.mem_reverse.mp ((List.dropWhile_sublist _).subset h)

/-- Every character of every chunk produced by the chunk loop occurs in the
input. -/
theorem chunkLoop_chars (maxL : ℕ) :
    ∀ (fuel : ℕ) (rem : List Char) (chunks : List (List Char)),
      chunkLoop maxL fuel rem = some chunks →
      ∀ ch ∈ chunks, ∀ a ∈ ch, a ∈ rem := by
  intro fuel
  induction fuel with
  | zero =>
    intro rem chunks h
    exact absurd h (by simp [chunkLoop])
  | succ n ih =>
    intro rem chunks h ch hch a ha
    rw [chunkLoop] at h
    by_cases h0 : rem = []
    · rw [if_pos h0] at h
      injection h with h'
      subst h'
      simp at hch
    · rw [if_neg h0] at h
      by_cases h1 : rem.length ≤ maxL
      · rw [if_pos h1] at h
        injection h with h'
        subst h'
        simp at hch
        subst hch
        exact ha
      · rw [if_neg h1] at h
        cases hrec : chunkLoop maxL n
            ((rem.drop (findSplitPoint rem maxL)).dropWhile (· == '\n')) with
        | none => rw [hrec] at h; cases h
        | some cs =>
          rw [hrec] at h
          injection h with h'
          subst h'
          have hrest : a ∈ ch → ch ∈ cs → a ∈ rem := by
            intro ha' hch'
            have := ih _ cs hrec ch hch' a ha'
            exact List.drop_subset _ _ ((List.dropWhile_sublist _).subset this)
          by_cases hc : rstripChars (rem.take (findSplitPoint rem maxL)) ≠ []
          · rw [if_pos hc] at hch
            rcases List.mem_cons.mp hch with hh | hh
            · subst hh
              exact List.take_subset _ _ (mem_rstripChars ha)
            · exact hrest ha hh
          · rw [if_neg hc] at hch
            exact hrest ha hch

/-- Every character of every chunk of `chunk_message` occurs in the text. -/
theorem chunkMessage_chars (fuel maxL : ℕ) (text : List Char)
    (chunks : List (List Char)) (h : chunkMessage fuel text maxL = some chunks) :
    ∀ ch ∈ chunks, ∀ a ∈ ch, a ∈ text := by
  intro ch hch a ha
  unfold chunkMessage at h
  by_cases h0 : text.length ≤ maxL
  · rw [if_pos h0] at h
    injection h with h'
    subst h'
    simp at hch
    subst hch
    exact ha
  · rw [if_neg h0] at h
    cases hrec : chunkLoop maxL fuel text with
    | none => rw [hrec] at h; cases h
    | some cs =>
      rw [hrec] at h
      injection h with h'
      subst h'
      have := (List.filter_sublist cs).subset hch
      exact chunkLoop_chars maxL fuel text cs hrec ch this a ha

/-- C3 counterexample: `chunk_message("x```aaaaaaaaaa", 8)` yields the chunks
`["x```aaaa", "aaaaaa"]` whose fence-marker counts are `[1, 0]` — the first
chunk holds an odd number of fence markers, so the split fell inside the
fenced block, contrary to the claim. -/
theorem chunkMessage_fence_broken_counterexample :
    (chunkMessage 4 ("x```aaaaaaaaaa".data) 8).map (fun cs => cs.map countFences)
      = some [1, 0] ∧ (1 : ℕ) % 2 = 1 :=
  ⟨rfl, rfl⟩

/-- C3 (amended): the no-broken-fence property is only best effort — on a
window with no usable fence-respecting split the code falls back to plain
splits that can land inside a fenced block.  For a text without backticks the
property holds: every chunk contains an even (namely zero) number of fence
markers. -/
theorem chunkMessage_backtick_free_even_fences (fuel maxL : ℕ)
    (text : List Char) (chunks : List (List Char))
    (hbt : ∀ c ∈ text, c ≠ '`')
    (h : chunkMessage fuel text maxL = some chunks) :
    ∀ ch ∈ chunks, countFences ch % 2 = 0 := by
  intro ch hch
  have hz : countFences ch = 0 :=
    countFences_eq_zero ch fun a ha =>
      hbt a (chunkMessage_chars fuel maxL text chunks h ch hch a ha)
  simp [hz]

/-- Witness for the amended C3 theorem on a concrete backtick-free text. -/
theorem chunkMessage_backtick_free_even_fences_witness :
    countFences ("hello".data) % 2 = 0 :=
  chunkMessage_backtick_free_even_fences 2 10 ("hello".data) [("hello".data)]
    (by decide) rfl ("hello".data) (by simp)

/-- The C4 failing input: three spaces, a fence, six letters; with
`max_length = 8` the split point is 0 and stripping makes no progress. -/
def c4Text : List Char := "   ```aaaaaa".data

/-- On the C4 failing input each loop iteration reproduces the same state, so
the loop never finishes however much fuel it is given. -/
theorem chunkLoop_c4_stuck : ∀ fuel, chunkLoop 8 fuel c4Text = none := by
  intro fuel
  induction fuel with
  | zero => rfl
  | succ n ih =>
    have hstep : chunkLoop 8 (n + 1) c4Text =
        match chunkLoop 8 n c4Text with
        | none => none
        | some chunks => some chunks := rfl
    rw [hstep, ih]

/-- C4: `chunk_message("   ```aaaaaa", 8)` never terminates: the fence branch
returns split point 0 (the text before the fence rstrips to nothing), the
empty chunk is discarded, and `lstrip("\n")` removes nothing because the text
starts with spaces — the `while` loop repeats the identical state forever,
contradicting the termination contract. -/
theorem chunkMessage_c4_infinite_loop :
    ∀ fuel, chunkMessage fuel c4Text 8 = none := by
  intro fuel
  unfold chunkMessage
  rw [if_neg (by decide), chunkLoop_c4_stuck]
  rfl

/-- Witness: even with fuel 1000 the loop has not produced a result. -/
theorem chunkMessage_c4_infinite_loop_witness :
    chunkMessage 1000 c4Text 8 = none :=
  chunkMessage_c4_infinite_loop 1000

/-! ## Provider chain (src/plug/models/base.py)

`ProviderChain.chat` is embedded as a deterministic trace semantics: an
oracle gives the transport outcome of each (provider, model, attempt) call,
and the function records the calls and `asyncio.sleep`s it performs. -/

/-- A Python exception as `_is_rate_limit_error` inspects it: its `str()`
form and the `response.status_code` attribute when present. -/
structure PErr where
  msg : String
  status : Option ℕ := none
deriving Repr, DecidableEq

/-- `str.lower()`, on the character list of a string. -/
def pyLower (s : List Char) : List Char := s.map Char.toLower

/-- Python's `sub in s` substring test. -/
def containsSub (hay need : List Char) : Bool :=
  (List.range (hay.length + 1)).any fun i => need.isPrefixOf (hay.drop i)

/-- `_is_rate_limit_error`: substring tests on the lowercased message, then
the 429 status-code check. -/
def isRateLimitError (e : PErr) : Bool :=
  let s := pyLower e.msg.data
  if containsSub s "429".data || containsSub s "rate".data ||
      containsSub s "too many".data then true
  else
    match e.status with
    | some c => c == 429
    | none => false

/-- The fields of `ProviderChain` that `chat` reads.  Providers are named by
tags: 0 is the primary provider; each fallback provider carries its tag. -/
structure ChainCfg where
  models : List String
  fallbacks : List (ℕ × List String) := []
  max_retries : ℕ := 2
  retry_delay : ℚ := 1

/-- Observable effects of `chat`: transport calls and `asyncio.sleep`s. -/
inductive Ev where
  | call (provider : ℕ) (model : String) (attempt : ℕ)
  | sleep (d : ℚ)
deriving Repr, DecidableEq

/-- Transport outcome per (provider, model, attempt): `none` is a successful
response, `some e` a raised exception. -/
def Oracle := ℕ → String → ℕ → Option PErr

/-- The `for attempt in range(max_retries)` loop of the primary phase, for
one model: exponential backoff capped at 30 s on rate-limited non-final
attempts, linear backoff otherwise, and a 5 s sleep after a final
rate-limited failure.  `remaining` counts the iterations left of
`range(max_retries)` (the loop is entered with `attempt = 0`,
`remaining = max_retries`). -/
def tryPrimary (o : Oracle) (rd : ℚ) (maxR : ℕ) (m : String) :
    ℕ → ℕ → Bool × List Ev
  | _, 0 => (false, [])
  | attempt, remaining + 1 =>
    match o 0 m attempt with
    | none => (true, [Ev.call 0 m attempt])
    | some e =>
      if attempt < maxR - 1 then
        ((tryPrimary o rd maxR m (attempt + 1) remaining).1,
         Ev.call 0 m attempt ::
         Ev.sleep (if isRateLimitError e then min (rd * 2 ^ (attempt + 2)) 30
                   else rd * (attempt + 1)) ::
         (tryPrimary o rd maxR m (attempt + 1) remaining).2)
      else
        (false, if isRateLimitError e then [Ev.call 0 m attempt, Ev.sleep 5]
                else [Ev.call 0 m attempt])

/-- The primary phase over `models_to_try` (first success returns). -/
def tryPrimaryModels (o : Oracle) (rd : ℚ) (maxR : ℕ) :
    List String → Bool × List Ev
  | [] => (false, [])
  | m :: ms =>
    if (tryPrimary o rd maxR m 0 maxR).1 then (true, (tryPrimary o rd maxR m 0 maxR).2)
    else ((tryPrimaryModels o rd maxR ms).1,
          (tryPrimary o rd maxR m 0 maxR).2 ++ (tryPrimaryModels o rd maxR ms).2)

/-- The retry loop of the fallback phase for one fallback model: as the code
has it, a plain `asyncio.sleep(retry_delay * (attempt + 1))` on every
non-final failure — no rate-limit classification, no exponential backoff and
no post-failure 5 s sleep. -/
def tryFallback (o : Oracle) (rd : ℚ) (maxR : ℕ) (tag : ℕ) (m : String) :
    ℕ → ℕ → Bool × List Ev
  | _, 0 => (false, [])
  | attempt, remaining + 1 =>
    match o tag m attempt with
    | none => (true, [Ev.call tag m attempt])
    | some _ =>
      if attempt < maxR - 1 then
        ((tryFallback o rd maxR tag m (attempt + 1) remaining).1,
         Ev.call tag m attempt :: Ev.sleep (rd * (attempt + 1)) ::
         (tryFallback o rd maxR tag m (attempt + 1) remaining).2)
      else
        (false, [Ev.call tag m attempt])

/-- The fallback phase over one provider's model list. -/
def tryFallbackModels (o : Oracle) (rd : ℚ) (maxR : ℕ) (tag : ℕ) :
    List String → Bool × List Ev
  | [] => (false, [])
  | m :: ms =>
    if (tryFallback o rd maxR tag m 0 maxR).1 then
      (true, (tryFallback o rd maxR tag m 0 maxR).2)
    else ((tryFallbackModels o rd maxR tag ms).1,
          (tryFallback o rd maxR tag m 0 maxR).2 ++ (tryFallbackModels o rd maxR tag ms).2)

/-- The fallback phase over all fallback providers. -/
def tryFallbacks (o : Oracle) (rd : ℚ) (maxR : ℕ) :
    List (ℕ × List String) → Bool × List Ev
  | [] => (false, [])
  | (tag, ms) :: fbs =>
    if (tryFallbackModels o rd maxR tag ms).1 then
      (true, (tryFallbackModels o rd maxR tag ms).2)
    else ((tryFallbacks o rd maxR fbs).1,
          (tryFallbackModels o rd maxR tag ms).2 ++ (tryFallbacks o rd maxR fbs).2)

/-- `ProviderChain.chat`: a requested truthy model is prepended, the primary
phase runs with retry and backoff, then the fallback providers; a `false`
result models the final `RuntimeError`. -/
def chainChat (cfg : ChainCfg) (o : Oracle) (mreq : Option String) :
    Bool × List Ev :=
  let modelsToTry :=
    match mreq with
    | some m => if m ≠ "" then m :: cfg.models else cfg.models
    | none => cfg.models
  if (tryPrimaryModels o cfg.retry_delay cfg.max_retries modelsToTry).1 then
    tryPrimaryModels o cfg.retry_delay cfg.max_retries modelsToTry
  else
    ((tryFallbacks o cfg.retry_delay cfg.max_retries cfg.fallbacks).1,
     (tryPrimaryModels o cfg.retry_delay cfg.max_retries modelsToTry).2 ++
     (tryFallbacks o cfg.retry_delay cfg.max_retries cfg.fallbacks).2)

/-- C10: in the primary retry loop, every non-final failed attempt is
followed by a sleep of exactly `min(retry_delay · 2^(attempt+2), 30)` seconds
when the error classifies as rate-limit, and exactly
`retry_delay · (attempt+1)` seconds otherwise. -/
theorem primary_backoff_delays (o : Oracle) (rd : ℚ) (maxR : ℕ) (m : String)
    (attempt remaining : ℕ) (e : PErr)
    (hfail : o 0 m attempt = some e)
    (hnonfinal : attempt < maxR - 1)
    (hrem : remaining ≠ 0) :
    (tryPrimary o rd maxR m attempt remaining).2 =
      Ev.call 0 m attempt ::
      Ev.sleep (if isRateLimitError e then min (rd * 2 ^ (attempt + 2)) 30
                else rd * (attempt + 1)) ::
      (tryPrimary o rd maxR m (attempt + 1) (remaining - 1)).2 := by
  obtain ⟨r, rfl⟩ := Nat.exists_eq_succ_of_ne_zero hrem
  simp only [Nat.succ_sub_one]
  rw [tryPrimary, hfail]
  dsimp only
  rw [if_pos hnonfinal]

/-- Oracle of the C10 witness: every model's first attempt is rate limited,
every later attempt succeeds. -/
def o10 : Oracle := fun _ _ a => if a = 0 then some ⟨"rate limited", none⟩ else none

/-- Witness for C10: with `retry_delay = 1` a rate-limited first attempt is
followed by a `min(1·2², 30) = 4` second sleep. -/
theorem primary_backoff_delays_witness :
    (tryPrimary o10 1 2 "m" 0 2).2 =
      [Ev.call 0 "m" 0, Ev.sleep 4, Ev.call 0 "m" 1] := by
  rw [primary_backoff_delays o10 1 2 "m" 0 2 ⟨"rate limited", none⟩ rfl
    (by decide) (by decide)]
  have h1 : isRateLimitError ⟨"rate limited", none⟩ = true := by decide
  have h2 : (tryPrimary o10 1 2 "m" (0 + 1) (2 - 1)).2 = [Ev.call 0 "m" 1] := rfl
  rw [h1, h2]
  norm_num

/-- Oracle of the C5 counterexample: the primary provider always fails with a
plain error, the fallback provider is rate limited on its first attempt and
succeeds on its second. -/
def o5 : Oracle := fun tag _ a =>
  if tag = 0 then some ⟨"boom", none⟩
  else if a = 0 then some ⟨"429 Too Many Requests", some 429⟩ else none

/-- The chain of the C5 counterexample: one primary model, one fallback
provider (tag 1) with one model, `max_retries = 2`, `retry_delay = 1`. -/
def cfg5 : ChainCfg := { models := ["m"], fallbacks := [(1, ["f"])] }

/-- C5 counterexample: the fallback model's first attempt fails rate-limited,
yet the chain sleeps `retry_delay·(0+1) = 1` second — not the rate-limit
backoff `min(1·2², 30) = 4` the primary policy prescribes — so fallback
models are not retried with the same retry policy. -/
theorem fallback_not_same_policy_counterexample :
    (chainChat cfg5 o5 none).2 =
      [Ev.call 0 "m" 0, Ev.sleep 1, Ev.call 0 "m" 1,
       Ev.call 1 "f" 0, Ev.sleep 1, Ev.call 1 "f" 1] ∧
    isRateLimitError ⟨"429 Too Many Requests", some 429⟩ = true ∧
    (1 : ℚ) ≠ min ((1 : ℚ) * 2 ^ (0 + 2)) 30 := by
  refine ⟨?_, by decide, by norm_num⟩
  simp only [chainChat, cfg5, o5, tryPrimaryModels, tryPrimary, tryFallbacks,
    tryFallbackModels, tryFallback]
  norm_num
  decide

/-- C5 (amended): each fallback model is retried `max_retries` times, but
with plain linear backoff `retry_delay·(attempt+1)` on every non-final
failure — regardless of rate-limit classification — and with no sleep at all
after a final failed attempt. -/
theorem fallback_linear_backoff (o : Oracle) (rd : ℚ) (maxR tag : ℕ)
    (m : String) (attempt remaining : ℕ) (e : PErr)
    (hfail : o tag m attempt = some e)
    (hrem : remaining ≠ 0) :
    (tryFallback o rd maxR tag m attempt remaining).2 =
      if attempt < maxR - 1 then
        Ev.call tag m attempt :: Ev.sleep (rd * (attempt + 1)) ::
          (tryFallback o rd maxR tag m (attempt + 1) (remaining - 1)).2
      else [Ev.call tag m attempt] := by
  obtain ⟨r, rfl⟩ := Nat.exists_eq_succ_of_ne_zero hrem
  simp only [Nat.succ_sub_one]
  rw [tryFallback, hfail]
  dsimp only
  by_cases h : attempt < maxR - 1
  · rw [if_pos h, if_pos h]
  · rw [if_neg h, if_neg h]

/-- Witness for the amended C5 theorem at the counterexample's fallback
call: non-final rate-limited failure, linear 1 s sleep. -/
theorem fallback_linear_backoff_witness :
    (tryFallback o5 1 2 1 "f" 0 2).2 =
      [Ev.call 1 "f" 0, Ev.sleep 1, Ev.call 1 "f" 1] := by
  rw [fallback_linear_backoff o5 1 2 1 "f" 0 2 ⟨"429 Too Many Requests", some 429⟩
    rfl (by decide)]
  simp only [tryFallback, o5]
  norm_num

/-! ## Session store (src/plug/sessions/store.py)

The `messages` table is a list of rows with AUTOINCREMENT ids.  The
`tool_calls` TEXT column holds `json.dumps` of a list of tool-call dicts or
NULL; since `json.dumps` is injective on that shape and `json.loads` inverts
it, the column is modelled as `Option (List ToolCall)` (`none` = NULL). -/

/-- A JSON value (tool-call arguments are parsed JSON in the code). -/
inductive JVal where
  | null
  | bool (b : Bool)
  | num (n : ℤ)
  | str (s : String)
  | arr (items : List JVal)
  | obj (fields : List (String × JVal))
deriving Repr, Inhabited

/-- The `ToolCall` dataclass of src/plug/models/base.py. -/
structure ToolCall where
  id : String
  name : String
  arguments : JVal
deriving Repr, Inhabited

/-- The `Message` dataclass of src/plug/models/base.py. -/
structure Msg where
  role : String
  content : Option String := none
  tool_calls : Option (List ToolCall) := none
  tool_call_id : Option String := none
  name : Option String := none
deriving Repr, Inhabited

/-- A row of the `messages` table. -/
structure Row where
  id : ℕ
  channel_id : String
  role : String
  content : Option String
  tool_calls : Option (List ToolCall)
  tool_call_id : Option String
  name : Option String
  token_count : ℕ
  compacted : Bool
deriving Repr

/-- The message store (the `sessions` table carries no message data and is
not modelled). -/
structure Store where
  rows : List Row := []
  nextId : ℕ := 1
deriving Repr

/-- `SessionStore.add_message`: a falsy (`None` or empty) `tool_calls` list
is stored as NULL, otherwise its JSON is stored; the row gets the next
AUTOINCREMENT id.  Returns the new store and the row id. -/
def addMessage (st : Store) (ch : String) (m : Msg) (tokenCount : ℕ) :
    Store × ℕ :=
  let tcJson : Option (List ToolCall) :=
    match m.tool_calls with
    | some l => if l.isEmpty then none else some l
    | none => none
  ({ rows := st.rows ++
      [⟨st.nextId, ch, m.role, m.content, tcJson, m.tool_call_id, m.name,
        tokenCount, false⟩],
     nextId := st.nextId + 1 }, st.nextId)

/-- `SessionStore._row_to_message`: `if row["tool_calls"]` is falsy exactly
for NULL (a stored JSON text is a non-empty string), in which case
`tool_calls` stays `None`; otherwise `json.loads` rebuilds the list. -/
def rowToMessage (r : Row) : Msg :=
  { role := r.role, content := r.content, tool_calls := r.tool_calls,
    tool_call_id := r.tool_call_id, name := r.name }

/-- `SessionStore.get_messages` (default `include_compacted=False`): active
rows of the channel in id order.  Rows are kept in insertion order with
strictly increasing AUTOINCREMENT ids (see `storeWF_addMessage`), so the
stored order realises `ORDER BY id ASC`. -/
def getMessages (st : Store) (ch : String) : List Msg :=
  (st.rows.filter fun r => r.channel_id == ch && !r.compacted).map rowToMessage

/-- `SessionStore.get_token_count`: sum of `token_count` over active rows. -/
def getTokenCount (st : Store) (ch : String) : ℕ :=
  ((st.rows.filter fun r => r.channel_id == ch && !r.compacted).map
    (·.token_count)).sum

/-- `SessionStore.get_message_ids`: ids of active rows, in id order. -/
def getMessageIds (st : Store) (ch : String) : List ℕ :=
  (st.rows.filter fun r => r.channel_id == ch && !r.compacted).map (·.id)

/-- `SessionStore.mark_compacted`: set `compacted = 1` on active non-system
rows of the channel with `id ≤ up_to_id`; returns the count marked. -/
def markCompacted (st : Store) (ch : String) (upTo : ℕ) : Store × ℕ :=
  let hit : Row → Bool := fun r =>
    r.channel_id == ch && decide (r.id ≤ upTo) && !r.compacted && r.role != "system"
  ({ st with rows := st.rows.map (fun r =>
      if hit r then { r with compacted := true } else r) },
   st.rows.countP hit)

/-- Well-formedness maintained by the embedding: row ids strictly increase in
stored order and stay below `nextId`. -/
def storeWF (st : Store) : Prop :=
  st.rows.Pairwise (fun a b => a.id < b.id) ∧ ∀ r ∈ st.rows, r.id < st.nextId

/-- `add_message` preserves the id invariant (so `ORDER BY id ASC` is the
stored order). -/
theorem storeWF_addMessage (st : Store) (ch : String) (m : Msg) (k : ℕ)
    (h : storeWF st) : storeWF (addMessage st ch m k).1 := by
  obtain ⟨hpw, hlt⟩ := h
  unfold storeWF addMessage
  dsimp only
  constructor
  · rw [List.pairwise_append]
    refine ⟨hpw, List.pairwise_singleton _ _, ?_⟩
    intro a ha b hb
    simp only [List.mem_singleton] at hb
    subst hb
    exact hlt a ha
  · intro r hr
    rcases List.mem_append.mp hr with h1 | h1
    · exact Nat.lt_succ_of_lt (hlt r h1)
    · simp only [List.mem_singleton] at h1
      subst h1
      exact Nat.lt_succ_self _

/-- Normalisation performed by the store round trip: a present-but-empty
`tool_calls` list is stored as NULL and read back as `None`; everything else
is preserved. -/
def normMsg (m : Msg) : Msg :=
  { m with tool_calls := match m.tool_calls with
      | some l => if l.isEmpty then none else some l
      | none => none }

/-- Appending one message appends exactly its normalised form to
`get_messages`. -/
theorem getMessages_addMessage (st : Store) (ch : String) (m : Msg) (k : ℕ) :
    getMessages (addMessage st ch m k).1 ch = getMessages st ch ++ [normMsg m] := by
  unfold getMessages addMessage normMsg rowToMessage
  dsimp only
  rw [List.filter_append, List.map_append]
  congr 1
  simp

/-- Folding `add_message` over a list of (message, token_count) pairs. -/
def addAll (st : Store) (ch : String) : List (Msg × ℕ) → Store
  | [] => st
  | (m, k) :: rest => addAll (addMessage st ch m k).1 ch rest

/-- `get_messages` after a sequence of appends extends the previous view by
the normalised appended messages, in order. -/
theorem getMessages_addAll (ch : String) (msgs : List (Msg × ℕ)) :
    ∀ st : Store, getMessages (addAll st ch msgs) ch =
      getMessages st ch ++ msgs.map (fun p => normMsg p.1) := by
  induction msgs with
  | nil => intro st; simp [addAll]
  | cons p rest ih =>
    intro st
    obtain ⟨m, k⟩ := p
    rw [addAll, ih, getMessages_addMessage]
    simp

/-- C9 counterexample: a message whose `tool_calls` is the empty list (not
`None`) does not round-trip: `add_message` stores NULL and `get_messages`
returns it with `tool_calls = None`. -/
theorem store_roundtrip_counterexample :
    getMessages (addMessage {} "c" { role := "assistant", tool_calls := some [] } 0).1 "c"
      = [{ role := "assistant" }] ∧
    ({ role := "assistant" } : Msg) ≠ { role := "assistant", tool_calls := some [] } := by
  refine ⟨rfl, ?_⟩
  intro h
  have := congrArg Msg.tool_calls h
  simp at this

/-- C9 (amended): starting from a store with no rows for the location, after
appending N messages `get_messages` returns exactly N messages in append
order, with identical role, content, tool_call_id and name, and with
tool_calls preserved exactly whenever it is not the empty list (a falsy
`tool_calls` — `None` or `[]` — comes back as `None`). -/
theorem store_persist_then_load (st : Store) (ch : String)
    (msgs : List (Msg × ℕ)) (hch : ∀ r ∈ st.rows, r.channel_id ≠ ch) :
    getMessages (addAll st ch msgs) ch = msgs.map (fun p => normMsg p.1) := by
  rw [getMessages_addAll]
  have hempty : getMessages st ch = [] := by
    unfold getMessages
    rw [List.map_eq_nil_iff, List.filter_eq_nil_iff]
    intro r hr
    simp [hch r hr]
  rw [hempty, List.nil_append]

/-- Witness for the amended C9 theorem: two concrete messages round-trip
(the second keeps its non-empty tool_calls intact). -/
theorem store_persist_then_load_witness :
    getMessages (addAll {} "c"
      [({ role := "user", content := some "hi" }, 3),
       ({ role := "assistant",
          tool_calls := some [⟨"t1", "shell", JVal.obj [("cmd", JVal.str "ls")]⟩] }, 7)]) "c"
      = [{ role := "user", content := some "hi" },
         { role := "assistant",
           tool_calls := some [⟨"t1", "shell", JVal.obj [("cmd", JVal.str "ls")]⟩] }] := by
  rw [store_persist_then_load {} "c" _ (by intro r hr; cases hr)]
  rfl

/-! ## Compactor (src/plug/sessions/compactor.py)

`count_message_tokens` is tiktoken-based and abstracted as an opaque cost
function `tok`; the summarization LLM call of `_summarize` is abstracted as
its outcome `summary : Option String` (`none` models both an exception —
caught and turned into `None` — and a `None` response content). -/

/-- The backward scan of `check_and_compact` computing `keep_from`:
iterate `i = n-1 .. 0`, accumulating `count_message_tokens(messages[i])`
until the target is exceeded. -/
def scanKeepAux (tok : Msg → ℕ) (target : ℕ) :
    List (ℕ × Msg) → ℕ → ℕ → ℕ
  | [], _, kf => kf
  | (i, m) :: rest, kt, kf =>
    if kt + tok m > target then kf
    else scanKeepAux tok target rest (kt + tok m) i

/-- `keep_from` before the last-2 cap. -/
def scanKeep (tok : Msg → ℕ) (target : ℕ) (msgs : List Msg) : ℕ :=
  scanKeepAux tok target msgs.enum.reverse 0 msgs.length

/-- The `while split > 0 and messages[split].role == "tool"` walk-back of
`_safe_split_point`. -/
def walkBack (msgs : List Msg) : ℕ → ℕ
  | 0 => 0
  | k + 1 =>
    if (msgs.getD (k + 1) { role := "" }).role = "tool" then walkBack msgs k
    else k + 1

/-- `_safe_split_point`. -/
def safeSplitPoint (msgs : List Msg) (split : ℕ) : ℕ :=
  if split = 0 ∨ msgs.length ≤ split then split
  else walkBack msgs split

/-- Python list indexing with negative wraparound (`ids[-1]` is the last
element); `none` is an `IndexError`. -/
def pyIndex (l : List ℕ) (i : ℤ) : Option ℕ :=
  if i < 0 then
    if (-i).toNat ≤ l.length then l.get? (l.length - (-i).toNat) else none
  else l.get? i.toNat

/-- `Compactor.check_and_compact` for one channel: returns `some (performed,
newStore)`, or `none` for an uncaught exception.  Every early exit returns
the store unchanged; the compaction path marks rows up to
`message_ids[keep_from - 1]` (Python indexing) and appends the summary as a
system message whose token count is `tok` of that message. -/
def checkAndCompact (maxCtx target : ℕ) (tok : Msg → ℕ)
    (summary : Option String) (st : Store) (ch : String) :
    Option (Bool × Store) :=
  if getTokenCount st ch ≤ maxCtx then some (false, st)
  else if (getMessages st ch).length < 4 then some (false, st)
  else
    let messages := getMessages st ch
    let kf1 := min (scanKeep tok target messages) (messages.length - 2)
    if kf1 = 0 then some (false, st)
    else
      let kf := safeSplitPoint messages kf1
      match summary with
      | none => some (false, st)
      | some s =>
        if s = "" then some (false, st)
        else
          let ids := getMessageIds st ch
          if ids.length < kf then some (false, st)
          else
            match pyIndex ids ((kf : ℤ) - 1) with
            | none => none
            | some upTo =>
              let summaryMsg : Msg :=
                { role := "system",
                  content := some ("[Previous conversation summary]\n" ++ s) }
              some (true,
                (addMessage (markCompacted st ch upTo).1 ch summaryMsg
                  (tok summaryMsg)).1)

/-- C8: when the summarization outcome is `None` (the LLM call raised, or
returned no content), `check_and_compact` returns `False` and the store is
unchanged — every path with a falsy summary is an early exit before any
mutation. -/
theorem compaction_failure_no_change (maxCtx target : ℕ) (tok : Msg → ℕ)
    (st : Store) (ch : String) :
    checkAndCompact maxCtx target tok none st ch = some (false, st) := by
  unfold checkAndCompact
  by_cases h1 : getTokenCount st ch ≤ maxCtx
  · rw [if_pos h1]
  · rw [if_neg h1]
    by_cases h2 : (getMessages st ch).length < 4
    · rw [if_pos h2]
    · rw [if_neg h2]
      dsimp only
      by_cases h3 : min (scanKeep tok target (getMessages st ch))
          ((getMessages st ch).length - 2) = 0
      · rw [if_pos h3]
      · rw [if_neg h3]

/-- The C2 failing store: four active messages in channel "c" (roles user,
tool, tool, user), 10 stored tokens each. -/
def c2Store : Store :=
  { rows := [
      ⟨1, "c", "user", some "aaaaaaaaaa", none, none, none, 10, false⟩,
      ⟨2, "c", "tool", some "bbb", none, some "t1", some "f", 10, false⟩,
      ⟨3, "c", "tool", some "ccc", none, some "t2", some "f", 10, false⟩,
      ⟨4, "c", "user", some "ddd", none, none, none, 10, false⟩ ],
    nextId := 5 }

/-- The C2 cost function (standing in for tiktoken): content length. -/
def c2Tok : Msg → ℕ := fun m => (m.content.getD "").length

/-- C2: with `max_context_tokens = 10` and `target_tokens = 5` the scan puts
`keep_from` at 2, the (pre-adjustment) `keep_from ≤ 0` guard passes, and the
integrity walk-back over the two tool messages then drives `keep_from` to 0 —
yet `check_and_compact` does NOT no-op: it proceeds, indexes
`message_ids[-1]` (the LAST id, by Python negative indexing), marks all 4
messages compacted — including the "keep at least the last 2" — appends a
summary of an empty segment, and returns True. -/
theorem compactor_keepfrom_zero_compacts_all :
    safeSplitPoint (getMessages c2Store "c")
      (min (scanKeep c2Tok 5 (getMessages c2Store "c"))
        ((getMessages c2Store "c").length - 2)) = 0 ∧
    (checkAndCompact 10 5 c2Tok (some "S") c2Store "c").map
      (fun p => (p.1, (p.2.rows.filter (fun r => r.compacted)).length,
                 p.2.rows.length))
      = some (true, 4, 5) :=
  ⟨rfl, rfl⟩

/-! ## A model of Python's `json.loads` (stdlib)

A recursive-descent parser over `List Char` with fuel, covering null,
booleans, integers, strings with the common escapes, arrays and objects.
Fractional/exponent numbers and `\u` escapes are outside the model and
fail; no claim depends on them.  As in the stdlib, the empty input and any
input that is not exactly one JSON value raise (here: `none`). -/

/-- Skip JSON whitespace. -/
def skipWs : List Char → List Char
  | c :: rest =>
    if c = ' ' ∨ c = '\t' ∨ c = '\n' ∨ c = '\r' then skipWs rest else c :: rest
  | [] => []

/-- Parse the body of a string literal after the opening quote, accumulating
characters (handles the escapes \" \\ \/ \n \t \r). -/
def parseStrBody : List Char → List Char → Option (String × List Char)
  | '"' :: rest, acc => some (String.mk acc.reverse, rest)
  | '\\' :: e :: rest, acc =>
    if e = '"' then parseStrBody rest ('"' :: acc)
    else if e = '\\' then parseStrBody rest ('\\' :: acc)
    else if e = '/' then parseStrBody rest ('/' :: acc)
    else if e = 'n' then parseStrBody rest ('\n' :: acc)
    else if e = 't' then parseStrBody rest ('\t' :: acc)
    else if e = 'r' then parseStrBody rest ('\r' :: acc)
    else none
  | [], _ => none
  | c :: rest, acc => parseStrBody rest (c :: acc)

/-- Consume a run of decimal digits. -/
def parseDigitsAux : List Char → ℕ → ℕ × List Char
  | c :: rest, acc =>
    if c.isDigit then parseDigitsAux rest (acc * 10 + (c.toNat - 48))
    else (acc, c :: rest)
  | [], acc => (acc, [])

/-- Parse an integer literal (a following '.', 'e' or 'E' — a float — is
outside the model and fails). -/
def parseIntLit (s : List Char) : Option (ℤ × List Char) :=
  match s with
  | '-' :: c :: rest =>
    if c.isDigit then
      match parseDigitsAux (c :: rest) 0 with
      | (n, 'e' :: _) => (fun _ => none) n
      | (n, 'E' :: _) => (fun _ => none) n
      | (n, '.' :: _) => (fun _ => none) n
      | (n, rest') => some (-(n : ℤ), rest')
    else none
  | c :: rest =>
    if c.isDigit then
      match parseDigitsAux (c :: rest) 0 with
      | (n, 'e' :: _) => (fun _ => none) n
      | (n, 'E' :: _) => (fun _ => none) n
      | (n, '.' :: _) => (fun _ => none) n
      | (n, rest') => some ((n : ℤ), rest')
    else none
  | [] => none

mutual

/-- Parse one JSON value. -/
def parseVal : ℕ → List Char → Option (JVal × List Char)
  | 0, _ => none
  | fuel + 1, s =>
    match skipWs s with
    | 'n' :: 'u' :: 'l' :: 'l' :: rest => some (JVal.null, rest)
    | 't' :: 'r' :: 'u' :: 'e' :: rest => some (JVal.bool true, rest)
    | 'f' :: 'a' :: 'l' :: 's' :: 'e' :: rest => some (JVal.bool false, rest)
    | '"' :: rest =>
      match parseStrBody rest [] with
      | some (str, rest') => some (JVal.str str, rest')
      | none => none
    | '{' :: rest =>
      (match skipWs rest with
       | '}' :: rest' => some (JVal.obj [], rest')
       | _ =>
         match parseFields fuel rest with
         | some (fs, rest') => some (JVal.obj fs, rest')
         | none => none)
    | '[' :: rest =>
      (match skipWs rest with
       | ']' :: rest' => some (JVal.arr [], rest')
       | _ =>
         match parseItems fuel rest with
         | some (vs, rest') => some (JVal.arr vs, rest')
         | none => none)
    | c :: rest =>
      if c = '-' ∨ c.isDigit then
        match parseIntLit (c :: rest) with
        | some (n, rest') => some (JVal.num n, rest')
        | none => none
      else none
    | [] => none

/-- Parse the fields of a non-empty object (after the opening brace). -/
def parseFields : ℕ → List Char → Option (List (String × JVal) × List Char)
  | 0, _ => none
  | fuel + 1, s =>
    match skipWs s with
    | '"' :: rest =>
      (match parseStrBody rest [] with
       | some (key, rest1) =>
         (match skipWs rest1 with
          | ':' :: rest2 =>
            (match parseVal fuel rest2 with
             | some (v, rest3) =>
               (match skipWs rest3 with
                | ',' :: rest4 =>
                  (match parseFields fuel rest4 with
                   | some (fs, rest5) => some ((key, v) :: fs, rest5)
                   | none => none)
                | '}' :: rest4 => some ([(key, v)], rest4)
                | _ => none)
             | none => none)
          | _ => none)
       | none => none)
    | _ => none

/-- Parse the items of a non-empty array (after the opening bracket). -/
def parseItems : ℕ → List Char → Option (List JVal × List Char)
  | 0, _ => none
  | fuel + 1, s =>
    match parseVal fuel s with
    | some (v, rest) =>
      (match skipWs rest with
       | ',' :: rest2 =>
         (match parseItems fuel rest2 with
          | some (vs, rest3) => some (v :: vs, rest3)
          | none => none)
       | ']' :: rest2 => some ([v], rest2)
       | _ => none)
    | none => none

end

/-- `json.loads`: one JSON value spanning the whole input. -/
def jsonLoads (s : String) : Option JVal :=
  match parseVal (s.length + 1) s.data with
  | some (v, rest) => if skipWs rest = [] then some v else none
  | none => none

/-! ## Proxy response parser (src/plug/models/proxy.py) -/

/-- The `arguments` value of a transport tool call: a string, or
already-parsed JSON (the `isinstance(args_raw, str)` distinction). -/
inductive PyArgs where
  | pstr (s : String)
  | pval (v : JVal)
deriving Repr

/-- The `function` object of a transport tool call; `arguments` may be
absent (then `fn.get("arguments", "{}")` supplies the default). -/
structure RespFn where
  name : String
  arguments : Option PyArgs
deriving Repr

/-- One entry of the transport `tool_calls` array. -/
structure RespToolCall where
  id : String
  fn : RespFn
deriving Repr

/-- The transport `message` object. -/
structure RespMsg where
  content : Option String
  tool_calls : Option (List RespToolCall)
deriving Repr

/-- One entry of the transport `choices` array. -/
structure RespChoice where
  message : RespMsg
  finish_reason : Option String
deriving Repr

/-- The transport chat-completion response body. -/
structure RespData where
  choices : List RespChoice
  model : Option String
  usage : List (String × ℕ)
deriving Repr

/-- The argument handling of `_parse_response` for one tool call:
`args_raw = fn.get("arguments", "{}")`; a string is `json.loads`-parsed,
falling back to `{"_raw": args_raw}` on `JSONDecodeError`; a non-string is
taken as-is. -/
def parseToolCallArgs (fn : RespFn) : JVal :=
  match fn.arguments.getD (PyArgs.pstr "{}") with
  | PyArgs.pstr s =>
    match jsonLoads s with
    | some v => v
    | none => JVal.obj [("_raw", JVal.str s)]
  | PyArgs.pval v => v

/-- The `ToolCall(...)` built for one transport tool call. -/
def parseToolCall (tc : RespToolCall) : ToolCall :=
  { id := tc.id, name := tc.fn.name, arguments := parseToolCallArgs tc.fn }

/-- `dict.get(k, 0)` on the usage dict. -/
def usageGet (u : List (String × ℕ)) (k : String) : ℕ :=
  match u.find? (fun p => p.1 == k) with
  | some p => p.2
  | none => 0

/-- The `ChatResponse` built by `_parse_response`. -/
structure ChatResponseM where
  message : Msg
  model : String
  finish_reason : String
  usage : List (String × ℕ)
deriving Repr

/-- `ProxyChatProvider._parse_response`: `choices[0]` (IndexError when empty,
modelled as `none`), a truthy `tool_calls` list parsed per entry, the
assistant message, and usage defaults. -/
def parseResponse (data : RespData) : Option ChatResponseM :=
  match data.choices.head? with
  | none => none
  | some choice =>
    let toolCalls : Option (List ToolCall) :=
      match choice.message.tool_calls with
      | some l => if l.isEmpty then none else some (l.map parseToolCall)
      | none => none
    some
      { message := { role := "assistant", content := choice.message.content,
                     tool_calls := toolCalls },
        model := data.model.getD "",
        finish_reason := choice.finish_reason.getD "",
        usage := [("prompt_tokens", usageGet data.usage "prompt_tokens"),
                  ("completion_tokens", usageGet data.usage "completion_tokens"),
                  ("total_tokens", usageGet data.usage "total_tokens")] }

/-- The transport response of the C6 counterexample: one tool call whose
`arguments` field is the empty string. -/
def c6Resp : RespData :=
  { choices := [⟨⟨none, some [⟨"call_1", ⟨"shell", some (PyArgs.pstr "")⟩⟩]⟩,
                 some "tool_calls"⟩],
    model := some "m", usage := [] }

/-- C6 counterexample: an empty-string `arguments` is NOT stored as `{}` —
`json.loads("")` raises (the `"{}"` default applies only to a missing key),
so the parsed ToolCall carries `{"_raw": ""}`. -/
theorem proxy_empty_args_counterexample :
    ((parseResponse c6Resp).map fun r =>
        r.message.tool_calls.map fun l => l.map ToolCall.arguments)
      = some (some [JVal.obj [("_raw", JVal.str "")]]) ∧
    JVal.obj [("_raw", JVal.str "")] ≠ JVal.obj [] := by
  refine ⟨rfl, ?_⟩
  intro h
  injection h with h'
  cases h'

/-- C6 (amended): a MISSING `arguments` field defaults to the string `"{}"`
and parses to `{}`; an `arguments` string that `json.loads` rejects — the
empty string included — is stored as `{"_raw": s}` with `s` unchanged. -/
theorem proxy_args_parsing (tc : RespToolCall) :
    (tc.fn.arguments = none → (parseToolCall tc).arguments = JVal.obj []) ∧
    (∀ s, tc.fn.arguments = some (PyArgs.pstr s) → jsonLoads s = none →
      (parseToolCall tc).arguments = JVal.obj [("_raw", JVal.str s)]) := by
  constructor
  · intro h
    unfold parseToolCall parseToolCallArgs
    rw [h]
    rfl
  · intro s hs hparse
    unfold parseToolCall parseToolCallArgs
    rw [hs]
    dsimp only [Option.getD]
    rw [hparse]

/-- Witness for the amended C6 theorem: a missing field gives `{}`, the
unparseable string "not json" gives `{"_raw": "not json"}`. -/
theorem proxy_args_parsing_witness :
    (parseToolCall ⟨"c1", ⟨"f", none⟩⟩).arguments = JVal.obj [] ∧
    (parseToolCall ⟨"c2", ⟨"g", some (PyArgs.pstr "not json")⟩⟩).arguments
      = JVal.obj [("_raw", JVal.str "not json")] :=
  ⟨(proxy_args_parsing ⟨"c1", ⟨"f", none⟩⟩).1 rfl,
   (proxy_args_parsing ⟨"c2", ⟨"g", some (PyArgs.pstr "not json")⟩⟩).2
     "not json" rfl rfl⟩

end Plug
